import Mathlib

/-!
# Vertical Vanguard — shallow embedding of the per-frame simulation

This file embeds the game-logic core of `VerticalVanguard.py` (the single
source file of the repository) in Lean 4 and proves properties of the
per-frame update.

Modelling conventions:
* Python floats are modelled as rationals (`ℚ`); every clamp (`max`/`min`)
  and comparison is exact, so the bound-preservation and branch structure
  of the source is preserved faithfully.
* Python ints are modelled as `ℤ` (`lives` can go negative in the source,
  so `ℕ` would be unfaithful).
* Every call to the `random` module is replaced by a value read from an
  explicit `Oracle` record (one fresh oracle per frame); theorems quantify
  over all oracles, which covers every possible sequence of random draws.
* Rendering (`pygame.draw`, HUD, blitting) and the purely cosmetic
  `particles` list are not part of the state: the source never reads them
  back into game logic (their only interaction is consuming random draws,
  which the oracle model absorbs).
* The `running` flag / ESC-quit handling is outside the per-frame state
  transition and is omitted.
-/

namespace VerticalVanguard

/-! ## Constants (from the top of `VerticalVanguard.py`) -/

def Wfield : ℚ := 64
def Hfield : ℚ := 64
def playerW : ℚ := 3
def playerH : ℚ := 3
def enemyW : ℚ := 3
def enemyH : ℚ := 3
def bulletW : ℚ := 1
def bulletH : ℚ := 2

def fuelConsumptionPerSec : ℚ := 1.8
def maxFuel : ℚ := 160
def maxAmmo : ℤ := 35
def pickupSpawnInterval : ℕ := 240
def pickupSpeed : ℚ := 0.4
def maxHp : ℤ := 100
def damageEnemyCollide : ℤ := 48
def damageEnemyBullet : ℤ := 28
def invulnDuration : ℚ := 1.2
def shortHitInvuln : ℚ := 0.18

def fuelPickupAmount : ℚ := 60
def ammoPickupAmount : ℤ := 12
def healthPickupAmount : ℤ := 40
def speedBoostMult : ℚ := 1.6
def speedBoostDuration : ℚ := 4
def rapidFireFactor : ℚ := 0.5
def rapidFireDuration : ℚ := 5
def spreadDuration : ℚ := 60

def enemyShootStartTime : ℚ := 20
def enemyFireRate : ℚ := 0.08
def enemyBulletSpeed : ℚ := 0.9
def levelDuration : ℚ := 120
def enemySpeedPerLevel : ℚ := 0.06
def dropChancePerKill : ℚ := 0.45

-- locals of `main` that act as constants
def spawnIntervalBase : ℚ := 56
def bulletSpeed : ℚ := 2.5
def enemyBaseSpeed : ℚ := 0.12
def playerBaseSpeed : ℚ := 1
def fireCooldownFrames : ℤ := 6

/-! ## Primitive helpers -/

/-- `clamp` from the source: `lo if v < lo else hi if v > hi else v`. -/
def clamp (v lo hi : ℚ) : ℚ :=
  if v < lo then lo else if hi < v then hi else v

/-- Axis-aligned bounding-box overlap test, exactly as in the source:
`ax < bx + bw and ax + aw > bx and ay < by + bh and ay + ah > by`. -/
def aabb (ax ay aw ah bx bY bw bh : ℚ) : Bool :=
  (ax < bx + bw) && (bx < ax + aw) && (ay < bY + bh) && (bY < ay + ah)

/-- Python's `int()` applied to a float: truncation toward zero. -/
def pyInt (q : ℚ) : ℤ :=
  if 0 ≤ q then ⌊q⌋ else ⌈q⌉

/-! ## Data model -/

/-- The `player` dict.  The four timer keys are accessed with
`get(…, 0.0)` / `setdefault(…, 0.0)` in the source, i.e. they behave as
fields defaulting to `0`. -/
structure Player where
  x : ℚ
  y : ℚ
  fireCd : ℤ
  lives : ℤ
  hp : ℤ
  invulnTime : ℚ
  fuel : ℚ
  ammo : ℤ
  speedBoostTime : ℚ
  rapidFireTime : ℚ
  spreadTime : ℚ
  deriving DecidableEq, Repr

/-- A projectile (`bullets` / `enemy_bullets` entries): `{x, y, vx, vy}`. -/
structure Bullet where
  x : ℚ
  y : ℚ
  vx : ℚ
  vy : ℚ
  deriving DecidableEq, Repr

/-- An enemy: `{x, y, dx}`. -/
structure Enemy where
  x : ℚ
  y : ℚ
  dx : ℤ
  deriving DecidableEq, Repr

/-- A pickup pod (`*_pods` entries).  The `color` field of the source is
display-only and constant per list, so it is dropped. -/
structure Pod where
  x : ℚ
  y : ℚ
  deriving DecidableEq, Repr

/-- The normalized per-frame input (arrow/WASD key pairs and space). -/
structure Input where
  left : Bool
  right : Bool
  up : Bool
  down : Bool
  fire : Bool
  deriving DecidableEq, Repr

/-- One frame's worth of random draws.  Per-entity draws are indexed by the
entity's position in its list, matching the source's iteration order. -/
structure Oracle where
  spawnX : ℤ          -- random.randint(0, W - ENEMY_W)
  spawnDx : ℤ         -- random.choice([-1, 0, 1])
  pickupR : ℚ         -- random.random() for the ambient pickup kind
  pickupX : ℤ         -- random.randint(0, W - 2)
  wiggleRoll : ℕ → ℚ  -- random.random() per enemy, wiggle direction change
  newDx : ℕ → ℤ       -- random.choice([-1, 0, 1]) per enemy
  shootRoll : ℕ → ℚ   -- random.random() per enemy, shoot decision
  aimJitter : ℕ → ℚ   -- random.uniform(-0.2, 0.2) per enemy
  dropRoll : ℕ → ℚ    -- random.random() per killing bullet, drop decision
  dropKind : ℕ → ℚ    -- random.random() per killing bullet, drop kind

/-- The full mutable state of one play session (particles excluded, see
the module docstring). -/
structure GameState where
  player : Player
  bullets : List Bullet
  enemies : List Enemy
  enemyBullets : List Bullet
  fuelPods : List Pod
  ammoPods : List Pod
  spreadPods : List Pod
  healthPods : List Pod
  score : ℤ
  frame : ℕ
  timeS : ℚ
  gameOver : Bool
  deriving DecidableEq, Repr

/-- Initial state (the assignments before the main loop). -/
def initialState : GameState where
  player :=
    { x := 31, y := 54, fireCd := 0, lives := 3, hp := maxHp, invulnTime := 0
      fuel := maxFuel, ammo := maxAmmo, speedBoostTime := 0, rapidFireTime := 0
      spreadTime := 0 }
  bullets := []
  enemies := []
  enemyBullets := []
  fuelPods := []
  ammoPods := []
  spreadPods := []
  healthPods := []
  score := 0
  frame := 0
  timeS := 0
  gameOver := false

/-! ## Difficulty (pure functions of `time_s`) -/

/-- `level = int(time_s // LEVEL_DURATION)`; float floor-division floors and
`int()` of the integral result is the identity, so this is the floor. -/
def levelOf (t : ℚ) : ℤ := ⌊t / levelDuration⌋

/-- `time_in_level = time_s - level * LEVEL_DURATION`. -/
def timeInLevel (t : ℚ) : ℚ := t - (levelOf t) * levelDuration

/-- `enemy_speed = enemy_base_speed + level * ENEMY_SPEED_PER_LEVEL
  + (time_in_level / LEVEL_DURATION) * ENEMY_SPEED_PER_LEVEL`. -/
def enemySpeedOf (t : ℚ) : ℚ :=
  enemyBaseSpeed + (levelOf t) * enemySpeedPerLevel
    + (timeInLevel t / levelDuration) * enemySpeedPerLevel

/-- `spawn_interval = max(20, int(56 - level * 4
  - (time_in_level / LEVEL_DURATION) * 2))`. -/
def spawnIntervalOf (t : ℚ) : ℤ :=
  max 20 (pyInt (spawnIntervalBase - (levelOf t) * 4
    - (timeInLevel t / levelDuration) * 2))

/-- Per-frame enemy shoot probability:
`ENEMY_FIRE_RATE * (1.0 + level * 0.12) * (dt / 1000.0)`. -/
def shootProbOf (t : ℚ) (dt : ℕ) : ℚ :=
  enemyFireRate * (1 + (levelOf t) * 0.12) * ((dt : ℚ) / 1000)

/-! ## Per-frame phases -/

/-- `frame += 1` and `time_s += dt / 1000.0` (loop head). -/
def tickTime (dt : ℕ) (s : GameState) : GameState :=
  { s with frame := s.frame + 1, timeS := s.timeS + (dt : ℚ) / 1000 }

/-- Player movement: fuel-scaled speed, optional boost, additive move,
clamp to the playfield minus the player size. -/
def movePlayerPhase (inp : Input) (s : GameState) : GameState :=
  let p := s.player
  let dxq : ℚ := (if inp.right then 1 else 0) - (if inp.left then 1 else 0)
  let dyq : ℚ := (if inp.down then 1 else 0) - (if inp.up then 1 else 0)
  let fuelFrac := max 0 (min 1 (p.fuel / maxFuel))
  let spd0 := playerBaseSpeed * (0.4 + 0.6 * fuelFrac)
  let spd := if 0 < p.speedBoostTime then spd0 * speedBoostMult else spd0
  { s with player :=
      { p with
        x := clamp (p.x + dxq * spd) 0 (Wfield - playerW)
        y := clamp (p.y + dyq * spd) 0 (Hfield - playerH) } }

/-- `if player["fire_cd"] > 0: player["fire_cd"] -= 1`. -/
def cooldownPhase (s : GameState) : GameState :=
  { s with player :=
      { s.player with
        fireCd := if 0 < s.player.fireCd then s.player.fireCd - 1
                  else s.player.fireCd } }

/-- The firing block (source lines 244–287).  Returns the updated player
and the list of bullets appended this frame. -/
def fireStep (fire : Bool) (p : Player) : Player × List Bullet :=
  if fire ∧ p.fireCd = 0 ∧ 0 < p.ammo then
    let rapid := 0 < p.rapidFireTime
    let cd := max 1 (pyInt ((fireCooldownFrames : ℚ) *
      (if rapid then rapidFireFactor else 1)))
    let c : Bullet := { x := p.x + 1, y := p.y - 2, vx := 0, vy := -bulletSpeed }
    ({ p with fireCd := cd, ammo := max 0 (p.ammo - 1) },
     if 0 < p.spreadTime then [c, { c with vx := -0.6 }, { c with vx := 0.6 }]
     else [c])
  else (p, [])

def firePhase (inp : Input) (s : GameState) : GameState :=
  let r := fireStep inp.fire s.player
  { s with player := r.1, bullets := s.bullets ++ r.2 }

/-- `if frame % spawn_interval == 0`: append a fresh enemy. -/
def spawnEnemyPhase (o : Oracle) (s : GameState) : GameState :=
  if (s.frame : ℤ) % spawnIntervalOf s.timeS = 0 then
    { s with enemies := s.enemies ++
        [{ x := (o.spawnX : ℚ), y := -enemyH, dx := o.spawnDx }] }
  else s

/-- `if frame % PICKUP_SPAWN_INTERVAL == 0`: ambient pickup,
fuel (r < 0.4), ammo (r < 0.8), else health. -/
def spawnPickupPhase (o : Oracle) (s : GameState) : GameState :=
  if s.frame % pickupSpawnInterval = 0 then
    let pod : Pod := { x := (o.pickupX : ℚ), y := -2 }
    if o.pickupR < 0.4 then { s with fuelPods := s.fuelPods ++ [pod] }
    else if o.pickupR < 0.8 then { s with ammoPods := s.ammoPods ++ [pod] }
    else { s with healthPods := s.healthPods ++ [pod] }
  else s

/-- One Euler step of a projectile: `x += vx; y += vy`. -/
def moveBullet (b : Bullet) : Bullet :=
  { b with x := b.x + b.vx, y := b.y + b.vy }

def moveBulletsPhase (s : GameState) : GameState :=
  { s with bullets := s.bullets.map moveBullet }

/-- Per-enemy movement: descend, and wiggle every 10th frame with a 20%
chance to change direction. -/
def moveEnemyOne (frame : ℕ) (speed : ℚ) (o : Oracle) (i : ℕ) (e : Enemy) :
    Enemy :=
  let e1 := { e with y := e.y + speed }
  if frame % 10 = 0 then
    let e2 := { e1 with x := clamp (e1.x + (e.dx : ℚ)) 0 (Wfield - enemyW) }
    if o.wiggleRoll i < 0.2 then { e2 with dx := o.newDx i } else e2
  else e1

/-- Enemy shooting (only when `time_s ≥ ENEMY_SHOOT_START_TIME`), using the
enemy's post-move position and aiming at the player's current x. -/
def enemyShootOne (t : ℚ) (prob : ℚ) (px : ℚ) (o : Oracle) (i : ℕ)
    (e : Enemy) : Option Bullet :=
  if enemyShootStartTime ≤ t ∧ o.shootRoll i < prob then
    some { x := e.x + 1, y := e.y + enemyH
           vx := (px + 1 - (e.x + 1)) * 0.05 + o.aimJitter i
           vy := enemyBulletSpeed }
  else none

def moveEnemiesPhase (o : Oracle) (dt : ℕ) (s : GameState) : GameState :=
  let speed := enemySpeedOf s.timeS
  let prob := shootProbOf s.timeS dt
  let moved := s.enemies.enum.map fun ie => moveEnemyOne s.frame speed o ie.1 ie.2
  { s with
    enemies := moved
    enemyBullets := s.enemyBullets ++
      moved.enum.filterMap fun ie => enemyShootOne s.timeS prob s.player.x o ie.1 ie.2 }

def moveEnemyBulletsPhase (s : GameState) : GameState :=
  { s with enemyBullets := s.enemyBullets.map moveBullet }

/-- Pods fall by `PICKUP_SPEED + enemy_speed * 0.2`. -/
def movePodsPhase (s : GameState) : GameState :=
  let dy := pickupSpeed + enemySpeedOf s.timeS * 0.2
  let mv : Pod → Pod := fun p => { p with y := p.y + dy }
  { s with
    fuelPods := s.fuelPods.map mv
    ammoPods := s.ammoPods.map mv
    spreadPods := s.spreadPods.map mv
    healthPods := s.healthPods.map mv }

/-! ## Combat -/

/-- One damage application (shared shape of source lines 467–479 and
493–504): `hp = max(0, hp - d)`, short invulnerability; on depletion the
player loses a life, hp and position reset, long invulnerability, and the
game-over flag is raised when lives reach 0. -/
def damageHit (d : ℤ) (p : Player) (go : Bool) : Player × Bool :=
  let hp1 := max 0 (p.hp - d)
  if hp1 ≤ 0 then
    let p2 := { p with hp := maxHp, lives := p.lives - 1, x := 31, y := 54
                       invulnTime := invulnDuration }
    (p2, if p2.lives ≤ 0 then true else go)
  else
    ({ p with hp := hp1, invulnTime := shortHitInvuln }, go)

structure HitResult where
  player : Player
  dead : List ℕ
  gameOver : Bool
  deriving Repr

/-- Player–enemy collision loop (source lines 452–480): the
invulnerability guard is re-read per enemy, and the loop `break`s after
the first hit (the hit enemy is marked dead). -/
def enemyPlayerLoop : List (ℕ × Enemy) → Player → Bool → HitResult
  | [], p, go => { player := p, dead := [], gameOver := go }
  | (i, e) :: rest, p, go =>
    if 0 < p.invulnTime then enemyPlayerLoop rest p go
    else if aabb p.x p.y playerW playerH e.x e.y enemyW enemyH then
      let r := damageHit damageEnemyCollide p go
      { player := r.1, dead := [i], gameOver := r.2 }
    else enemyPlayerLoop rest p go

/-- Enemy-bullet–player collision loop (source lines 485–504): no break;
the invulnerability guard is re-read per bullet; hitting bullets are
marked dead. -/
def enemyBulletLoop : List (ℕ × Bullet) → Player → Bool → HitResult
  | [], p, go => { player := p, dead := [], gameOver := go }
  | (i, b) :: rest, p, go =>
    if 0 < p.invulnTime then enemyBulletLoop rest p go
    else if aabb p.x p.y playerW playerH b.x b.y 1 1 then
      let d := damageHit damageEnemyBullet p go
      let r := enemyBulletLoop rest d.1 d.2
      { player := r.player, dead := i :: r.dead, gameOver := r.gameOver }
    else enemyBulletLoop rest p go

/-- First enemy overlapping a player bullet (inner loop of the
bullet–enemy collision pass). -/
def findHitEnemy (b : Bullet) : List (ℕ × Enemy) → Option (ℕ × Enemy)
  | [] => none
  | (i, e) :: rest =>
    if aabb b.x b.y bulletW bulletH e.x e.y enemyW enemyH then some (i, e)
    else findHitEnemy b rest

/-- Drop lists spawned by one kill, following the cumulative-weight scan
over `DROP_WEIGHTS` (cumulative thresholds 0.4, 0.8, 0.9, 1.0). -/
structure Drops where
  dFuel : List Pod
  dAmmo : List Pod
  dSpread : List Pod
  dHealth : List Pod
  deriving Repr

def noDrops : Drops := { dFuel := [], dAmmo := [], dSpread := [], dHealth := [] }

def dropPods (o : Oracle) (bi : ℕ) (ex ey : ℚ) : Drops :=
  if o.dropRoll bi < dropChancePerKill then
    let r := o.dropKind bi
    let pod : Pod := { x := ex, y := ey }
    if r < 0.4 then { noDrops with dFuel := [pod] }
    else if r < 0.8 then { noDrops with dAmmo := [pod] }
    else if r < 0.9 then { noDrops with dSpread := [pod] }
    else if r < 1 then { noDrops with dHealth := [pod] }
    else noDrops
  else noDrops

structure KillResult where
  deadB : List ℕ
  deadE : List ℕ
  score : ℤ
  drops : Drops
  deriving Repr

/-- Bullet–enemy collision pass (source lines 384–445): every bullet scans
the full—as yet unfiltered—enemy list, kills at most one enemy, and may
roll a drop. -/
def bulletEnemyLoop (o : Oracle) :
    List (ℕ × Bullet) → List (ℕ × Enemy) → KillResult
  | [], _ => { deadB := [], deadE := [], score := 0, drops := noDrops }
  | (bi, b) :: rest, es =>
    match findHitEnemy b es with
    | none => bulletEnemyLoop o rest es
    | some (ei, e) =>
      let d := dropPods o bi e.x e.y
      let r := bulletEnemyLoop o rest es
      { deadB := bi :: r.deadB
        deadE := ei :: r.deadE
        score := r.score + 1
        drops :=
          { dFuel := d.dFuel ++ r.drops.dFuel
            dAmmo := d.dAmmo ++ r.drops.dAmmo
            dSpread := d.dSpread ++ r.drops.dSpread
            dHealth := d.dHealth ++ r.drops.dHealth } }

/-! ## Pickups -/

def fuelEffect (p : Player) : Player :=
  { p with fuel := min maxFuel (p.fuel + fuelPickupAmount)
           speedBoostTime := speedBoostDuration }

def ammoEffect (p : Player) : Player :=
  { p with ammo := min maxAmmo (p.ammo + ammoPickupAmount)
           rapidFireTime := rapidFireDuration }

def spreadEffect (p : Player) : Player :=
  { p with spreadTime := spreadDuration }

def healthEffect (p : Player) : Player :=
  { p with hp := min maxHp (p.hp + healthPickupAmount) }

/-- Shared shape of the four pickup-collection loops (source lines
512–557): every overlapping pod applies its effect and is marked dead;
no break. -/
def pickupLoop (eff : Player → Player) :
    List (ℕ × Pod) → Player → Player × List ℕ
  | [], p => (p, [])
  | (i, pod) :: rest, p =>
    if aabb p.x p.y playerW playerH pod.x pod.y 2 2 then
      let r := pickupLoop eff rest (eff p)
      (r.1, i :: r.2)
    else pickupLoop eff rest p

/-! ## Combat + pickups + cleanup (source lines 384–573, in order) -/

def combatPhase (o : Oracle) (s : GameState) : GameState :=
  let kr := bulletEnemyLoop o s.bullets.enum s.enemies.enum
  let h1 := enemyPlayerLoop s.enemies.enum s.player s.gameOver
  let h2 := enemyBulletLoop s.enemyBullets.enum h1.player h1.gameOver
  let ebs := s.enemyBullets.enum.filterMap fun ib =>
    if ib.1 ∉ h2.dead ∧ ib.2.y < Hfield + 2 then some ib.2 else none
  let fp0 := s.fuelPods ++ kr.drops.dFuel
  let r1 := pickupLoop fuelEffect fp0.enum h2.player
  let fp1 := fp0.enum.filterMap fun ip =>
    if ip.1 ∉ r1.2 then some ip.2 else none
  let ap0 := s.ammoPods ++ kr.drops.dAmmo
  let r2 := pickupLoop ammoEffect ap0.enum r1.1
  let ap1 := ap0.enum.filterMap fun ip =>
    if ip.1 ∉ r2.2 then some ip.2 else none
  let sp0 := s.spreadPods ++ kr.drops.dSpread
  let r3 := pickupLoop spreadEffect sp0.enum r2.1
  let sp1 := sp0.enum.filterMap fun ip =>
    if ip.1 ∉ r3.2 then some ip.2 else none
  let hpods0 := s.healthPods ++ kr.drops.dHealth
  let r4 := pickupLoop healthEffect hpods0.enum r3.1
  let hpods1 := hpods0.enum.filterMap fun ip =>
    if ip.1 ∉ r4.2 then some ip.2 else none
  let bulletsClean := s.bullets.enum.filterMap fun ib =>
    if ib.1 ∉ kr.deadB ∧ -bulletH < ib.2.y then some ib.2 else none
  let enemiesClean := s.enemies.enum.filterMap fun ie =>
    if ie.1 ∉ kr.deadE ∧ ie.1 ∉ h1.dead ∧ ie.2.y < Hfield + enemyH
    then some ie.2 else none
  { s with
    player := r4.1
    bullets := bulletsClean
    enemies := enemiesClean
    enemyBullets := ebs
    fuelPods := fp1.filter fun p => p.y < Hfield + 2
    ammoPods := ap1.filter fun p => p.y < Hfield + 2
    spreadPods := sp1.filter fun p => p.y < Hfield + 2
    healthPods := hpods1.filter fun p => p.y < Hfield + 2
    score := s.score + kr.score
    gameOver := h2.gameOver }

/-! ## End-of-frame decay -/

/-- `player["fuel"] = max(0.0, fuel - FUEL_CONSUMPTION_PER_SEC * dt/1000)`. -/
def fuelDecayPhase (dt : ℕ) (s : GameState) : GameState :=
  { s with player :=
      { s.player with
        fuel := max 0 (s.player.fuel - fuelConsumptionPerSec * ((dt : ℚ) / 1000)) } }

/-- One timer's end-of-frame decay:
`if t > 0: t = max(0.0, t - dt / 1000.0)`. -/
def timerDecay (dtq : ℚ) (t : ℚ) : ℚ :=
  if 0 < t then max 0 (t - dtq) else t

def timersPhase (dt : ℕ) (s : GameState) : GameState :=
  let d := (dt : ℚ) / 1000
  { s with player :=
      { s.player with
        rapidFireTime := timerDecay d s.player.rapidFireTime
        speedBoostTime := timerDecay d s.player.speedBoostTime
        spreadTime := timerDecay d s.player.spreadTime
        invulnTime := timerDecay d s.player.invulnTime } }

/-! ## The full per-frame update -/

/-- One iteration of the main loop (rendering omitted).  `dt` is the
elapsed milliseconds reported by `clock.tick(FPS)`. -/
def preCombat (inp : Input) (o : Oracle) (dt : ℕ) (s : GameState) : GameState :=
  movePodsPhase <| moveEnemyBulletsPhase <| moveEnemiesPhase o dt <|
    moveBulletsPhase <| spawnPickupPhase o <| spawnEnemyPhase o <|
    firePhase inp <| cooldownPhase <| movePlayerPhase inp <| tickTime dt s

def step (inp : Input) (o : Oracle) (dt : ℕ) (s : GameState) : GameState :=
  timersPhase dt <| fuelDecayPhase dt <| combatPhase o <| preCombat inp o dt s

/-! ## Invariants and concrete test fixtures -/

/-- The resource bounds the specification asserts for every frame
(without the `lives` clause, which fails — see the theorems below). -/
def ResInv (p : Player) : Prop :=
  0 ≤ p.hp ∧ p.hp ≤ maxHp ∧ 0 ≤ p.fuel ∧ p.fuel ≤ maxFuel ∧
    0 ≤ p.ammo ∧ p.ammo ≤ maxAmmo

instance (p : Player) : Decidable (ResInv p) := by unfold ResInv; infer_instance

/-- The inductive frame invariant the code actually maintains: resource
bounds, plus `lives ≥ 1` as long as the session is not over. -/
def GInv (s : GameState) : Prop :=
  ResInv s.player ∧ (s.gameOver = false → 1 ≤ s.player.lives)

instance (s : GameState) : Decidable (GInv s) := by unfold GInv; infer_instance

/-- An oracle whose draws trigger no optional random event (all rolls 1). -/
def quietOracle : Oracle where
  spawnX := 0
  spawnDx := 0
  pickupR := 1
  pickupX := 0
  wiggleRoll := fun _ => 1
  newDx := fun _ => 0
  shootRoll := fun _ => 1
  aimJitter := fun _ => 0
  dropRoll := fun _ => 1
  dropKind := fun _ => 0

/-- No keys pressed. -/
def idleInput : Input where
  left := false
  right := false
  up := false
  down := false
  fire := false

/-- A game-over state with zero lives and an enemy one step above the
player's hitbox: the next frame still applies damage. -/
def cexStateC1 : GameState :=
  { initialState with
    player := { initialState.player with hp := 40, lives := 0 }
    enemies := [{ x := 30, y := 53.88, dx := 0 }]
    gameOver := true }

/-- A plain game-over state (used to show the update is not frozen). -/
def cexStateC2 : GameState := { initialState with gameOver := true }

/-- Player about to take a light hit (full hp, not invulnerable). -/
def cexPlayerHi : Player := initialState.player

/-- Player about to take a lethal hit (`hp ≤ DAMAGE_ENEMY_COLLIDE`). -/
def cexPlayerLo : Player := { initialState.player with hp := 40 }

/-- An enemy overlapping the spawn-point player box. -/
def cexEnemy : Enemy := { x := 30, y := 54, dx := 0 }

/-- An enemy bullet overlapping the spawn-point player box. -/
def cexEnemyBullet : Bullet := { x := 32, y := 55, vx := 0, vy := enemyBulletSpeed }

/-- A pod overlapping the spawn-point player box. -/
def cexPod : Pod := { x := 31, y := 54 }

/-! ## Helper lemmas: phases that do not touch the player or the flag -/

@[simp] lemma tickTime_player (dt : ℕ) (s : GameState) :
    (tickTime dt s).player = s.player := rfl

@[simp] lemma tickTime_gameOver (dt : ℕ) (s : GameState) :
    (tickTime dt s).gameOver = s.gameOver := rfl

@[simp] lemma movePlayerPhase_gameOver (inp : Input) (s : GameState) :
    (movePlayerPhase inp s).gameOver = s.gameOver := rfl

@[simp] lemma movePlayerPhase_hp (inp : Input) (s : GameState) :
    (movePlayerPhase inp s).player.hp = s.player.hp := rfl

@[simp] lemma movePlayerPhase_fuel (inp : Input) (s : GameState) :
    (movePlayerPhase inp s).player.fuel = s.player.fuel := rfl

@[simp] lemma movePlayerPhase_ammo (inp : Input) (s : GameState) :
    (movePlayerPhase inp s).player.ammo = s.player.ammo := rfl

@[simp] lemma movePlayerPhase_lives (inp : Input) (s : GameState) :
    (movePlayerPhase inp s).player.lives = s.player.lives := rfl

@[simp] lemma cooldownPhase_gameOver (s : GameState) :
    (cooldownPhase s).gameOver = s.gameOver := rfl

@[simp] lemma cooldownPhase_hp (s : GameState) :
    (cooldownPhase s).player.hp = s.player.hp := rfl

@[simp] lemma cooldownPhase_fuel (s : GameState) :
    (cooldownPhase s).player.fuel = s.player.fuel := rfl

@[simp] lemma cooldownPhase_ammo (s : GameState) :
    (cooldownPhase s).player.ammo = s.player.ammo := rfl

@[simp] lemma cooldownPhase_lives (s : GameState) :
    (cooldownPhase s).player.lives = s.player.lives := rfl

lemma fireStep_hp (f : Bool) (p : Player) : (fireStep f p).1.hp = p.hp := by
  simp only [fireStep]; split_ifs <;> rfl

lemma fireStep_fuel (f : Bool) (p : Player) : (fireStep f p).1.fuel = p.fuel := by
  simp only [fireStep]; split_ifs <;> rfl

lemma fireStep_lives (f : Bool) (p : Player) : (fireStep f p).1.lives = p.lives := by
  simp only [fireStep]; split_ifs <;> rfl

lemma fireStep_ammo (f : Bool) (p : Player) :
    (fireStep f p).1.ammo = p.ammo ∨ (fireStep f p).1.ammo = max 0 (p.ammo - 1) := by
  simp only [fireStep]; split_ifs <;> simp

@[simp] lemma firePhase_gameOver (inp : Input) (s : GameState) :
    (firePhase inp s).gameOver = s.gameOver := rfl

@[simp] lemma firePhase_player (inp : Input) (s : GameState) :
    (firePhase inp s).player = (fireStep inp.fire s.player).1 := rfl

@[simp] lemma spawnEnemyPhase_player (o : Oracle) (s : GameState) :
    (spawnEnemyPhase o s).player = s.player := by
  unfold spawnEnemyPhase; split <;> rfl

@[simp] lemma spawnEnemyPhase_gameOver (o : Oracle) (s : GameState) :
    (spawnEnemyPhase o s).gameOver = s.gameOver := by
  unfold spawnEnemyPhase; split <;> rfl

@[simp] lemma spawnPickupPhase_player (o : Oracle) (s : GameState) :
    (spawnPickupPhase o s).player = s.player := by
  unfold spawnPickupPhase; split <;> [skip; rfl]; split <;> [rfl; skip]; split <;> rfl

@[simp] lemma spawnPickupPhase_gameOver (o : Oracle) (s : GameState) :
    (spawnPickupPhase o s).gameOver = s.gameOver := by
  unfold spawnPickupPhase; split <;> [skip; rfl]; split <;> [rfl; skip]; split <;> rfl

@[simp] lemma moveBulletsPhase_player (s : GameState) :
    (moveBulletsPhase s).player = s.player := rfl

@[simp] lemma moveBulletsPhase_gameOver (s : GameState) :
    (moveBulletsPhase s).gameOver = s.gameOver := rfl

@[simp] lemma moveEnemiesPhase_player (o : Oracle) (dt : ℕ) (s : GameState) :
    (moveEnemiesPhase o dt s).player = s.player := rfl

@[simp] lemma moveEnemiesPhase_gameOver (o : Oracle) (dt : ℕ) (s : GameState) :
    (moveEnemiesPhase o dt s).gameOver = s.gameOver := rfl

@[simp] lemma moveEnemyBulletsPhase_player (s : GameState) :
    (moveEnemyBulletsPhase s).player = s.player := rfl

@[simp] lemma moveEnemyBulletsPhase_gameOver (s : GameState) :
    (moveEnemyBulletsPhase s).gameOver = s.gameOver := rfl

@[simp] lemma movePodsPhase_player (s : GameState) :
    (movePodsPhase s).player = s.player := rfl

@[simp] lemma movePodsPhase_gameOver (s : GameState) :
    (movePodsPhase s).gameOver = s.gameOver := rfl

@[simp] lemma fuelDecayPhase_gameOver (dt : ℕ) (s : GameState) :
    (fuelDecayPhase dt s).gameOver = s.gameOver := rfl

@[simp] lemma fuelDecayPhase_hp (dt : ℕ) (s : GameState) :
    (fuelDecayPhase dt s).player.hp = s.player.hp := rfl

@[simp] lemma fuelDecayPhase_ammo (dt : ℕ) (s : GameState) :
    (fuelDecayPhase dt s).player.ammo = s.player.ammo := rfl

@[simp] lemma fuelDecayPhase_lives (dt : ℕ) (s : GameState) :
    (fuelDecayPhase dt s).player.lives = s.player.lives := rfl

@[simp] lemma fuelDecayPhase_fuel (dt : ℕ) (s : GameState) :
    (fuelDecayPhase dt s).player.fuel
      = max 0 (s.player.fuel - fuelConsumptionPerSec * ((dt : ℚ) / 1000)) := rfl

@[simp] lemma timersPhase_gameOver (dt : ℕ) (s : GameState) :
    (timersPhase dt s).gameOver = s.gameOver := rfl

@[simp] lemma timersPhase_hp (dt : ℕ) (s : GameState) :
    (timersPhase dt s).player.hp = s.player.hp := rfl

@[simp] lemma timersPhase_fuel (dt : ℕ) (s : GameState) :
    (timersPhase dt s).player.fuel = s.player.fuel := rfl

@[simp] lemma timersPhase_ammo (dt : ℕ) (s : GameState) :
    (timersPhase dt s).player.ammo = s.player.ammo := rfl

@[simp] lemma timersPhase_lives (dt : ℕ) (s : GameState) :
    (timersPhase dt s).player.lives = s.player.lives := rfl

@[simp] lemma timersPhase_invulnTime (dt : ℕ) (s : GameState) :
    (timersPhase dt s).player.invulnTime
      = timerDecay ((dt : ℚ) / 1000) s.player.invulnTime := rfl

/-! ## Helper lemmas: damage -/

lemma damageHit_fuel (d : ℤ) (p : Player) (go : Bool) :
    (damageHit d p go).1.fuel = p.fuel := by
  simp only [damageHit]; split <;> rfl

lemma damageHit_ammo (d : ℤ) (p : Player) (go : Bool) :
    (damageHit d p go).1.ammo = p.ammo := by
  simp only [damageHit]; split <;> rfl

lemma damageHit_invuln_pos (d : ℤ) (p : Player) (go : Bool) :
    0 < (damageHit d p go).1.invulnTime := by
  simp only [damageHit]; split
  · show (0 : ℚ) < invulnDuration; norm_num [invulnDuration]
  · show (0 : ℚ) < shortHitInvuln; norm_num [shortHitInvuln]

lemma damageHit_hp_bounds (d : ℤ) (p : Player) (go : Bool) (hd : 0 ≤ d)
    (h : p.hp ≤ maxHp) :
    0 ≤ (damageHit d p go).1.hp ∧ (damageHit d p go).1.hp ≤ maxHp := by
  simp only [damageHit]; split
  · exact ⟨by norm_num [maxHp], le_refl _⟩
  · refine ⟨le_max_left _ _, ?_⟩
    have : max 0 (p.hp - d) ≤ max 0 p.hp := by
      apply max_le_max (le_refl _); omega
    have h2 : max 0 p.hp ≤ maxHp := by
      rw [max_le_iff]; exact ⟨by norm_num [maxHp], h⟩
    exact le_trans this h2

lemma damageHit_lives (d : ℤ) (p : Player) (go : Bool) :
    p.lives - 1 ≤ (damageHit d p go).1.lives ∧
      (damageHit d p go).1.lives ≤ p.lives := by
  simp only [damageHit]; split
  · simp
  · simp

lemma damageHit_go_mono (d : ℤ) (p : Player) (go : Bool) (h : go = true) :
    (damageHit d p go).2 = true := by
  simp only [damageHit]; split
  · split <;> simp [h]
  · exact h

lemma damageHit_go_contract (d : ℤ) (p : Player) (go : Bool)
    (h : go = false → 1 ≤ p.lives) :
    (damageHit d p go).2 = false → 1 ≤ (damageHit d p go).1.lives := by
  simp only [damageHit]; split
  · intro hf
    by_cases hl : p.lives - 1 ≤ 0
    · simp [hl] at hf
    · simpa using by omega
  · intro hf; simpa using h hf

/-! ## Helper lemmas: collision loops -/

/-- While invulnerable, the player–enemy loop is the identity. -/
lemma enemyPlayerLoop_invuln (es : List (ℕ × Enemy)) (p : Player) (go : Bool)
    (h : 0 < p.invulnTime) :
    enemyPlayerLoop es p go = { player := p, dead := [], gameOver := go } := by
  induction es with
  | nil => rfl
  | cons ie rest ih =>
    obtain ⟨i, e⟩ := ie
    simp only [enemyPlayerLoop, if_pos h]
    exact ih

/-- While invulnerable, the enemy-bullet–player loop is the identity. -/
lemma enemyBulletLoop_invuln (bs : List (ℕ × Bullet)) (p : Player) (go : Bool)
    (h : 0 < p.invulnTime) :
    enemyBulletLoop bs p go = { player := p, dead := [], gameOver := go } := by
  induction bs with
  | nil => rfl
  | cons ib rest ih =>
    obtain ⟨i, b⟩ := ib
    simp only [enemyBulletLoop, if_pos h]
    exact ih

/-- The player–enemy loop either leaves everything unchanged or applies
exactly one collision damage to the incoming player, killing one enemy. -/
lemma enemyPlayerLoop_char (es : List (ℕ × Enemy)) (p : Player) (go : Bool) :
    enemyPlayerLoop es p go = { player := p, dead := [], gameOver := go } ∨
      ∃ i, enemyPlayerLoop es p go =
        { player := (damageHit damageEnemyCollide p go).1, dead := [i]
          gameOver := (damageHit damageEnemyCollide p go).2 } := by
  induction es with
  | nil => left; rfl
  | cons ie rest ih =>
    obtain ⟨i, e⟩ := ie
    by_cases hinv : 0 < p.invulnTime
    · simpa only [enemyPlayerLoop, if_pos hinv] using ih
    · by_cases hov : aabb p.x p.y playerW playerH e.x e.y enemyW enemyH
      · right
        exact ⟨i, by simp only [enemyPlayerLoop, if_neg hinv, if_pos hov]⟩
      · simpa only [enemyPlayerLoop, if_neg hinv, if_neg hov] using ih

/-- The enemy-bullet loop either leaves everything unchanged or applies
exactly one bullet damage to the incoming player, destroying one bullet. -/
lemma enemyBulletLoop_char (bs : List (ℕ × Bullet)) (p : Player) (go : Bool) :
    enemyBulletLoop bs p go = { player := p, dead := [], gameOver := go } ∨
      ∃ i, enemyBulletLoop bs p go =
        { player := (damageHit damageEnemyBullet p go).1, dead := [i]
          gameOver := (damageHit damageEnemyBullet p go).2 } := by
  induction bs with
  | nil => left; rfl
  | cons ib rest ih =>
    obtain ⟨i, b⟩ := ib
    by_cases hinv : 0 < p.invulnTime
    · simpa only [enemyBulletLoop, if_pos hinv] using ih
    · by_cases hov : aabb p.x p.y playerW playerH b.x b.y 1 1
      · right
        refine ⟨i, ?_⟩
        simp only [enemyBulletLoop, if_neg hinv, if_pos hov]
        rw [enemyBulletLoop_invuln _ _ _ (damageHit_invuln_pos _ _ _)]
      · simpa only [enemyBulletLoop, if_neg hinv, if_neg hov] using ih

/-! ## Helper lemmas: pickup loops -/

/-- Any property preserved by the pickup effect is preserved by the whole
collection loop. -/
lemma pickupLoop_inv (eff : Player → Player) (Q : Player → Prop)
    (hQ : ∀ q, Q q → Q (eff q)) :
    ∀ (l : List (ℕ × Pod)) (p : Player), Q p → Q (pickupLoop eff l p).1 := by
  intro l
  induction l with
  | nil => intro p h; exact h
  | cons ip rest ih =>
    intro p h
    obtain ⟨i, pod⟩ := ip
    by_cases hov : aabb p.x p.y playerW playerH pod.x pod.y 2 2
    · simp only [pickupLoop, if_pos hov]
      exact ih (eff p) (hQ p h)
    · simp only [pickupLoop, if_neg hov]
      exact ih p h

/-! ## Claim C4: damage outcome with `invulnTime = 0` -/

/-- C4.  Enemy-on-player damage with `invulnTime = 0`, applied to an
overlapping enemy: if `hp > DAMAGE_ENEMY_COLLIDE` the result is
`hp - DAMAGE_ENEMY_COLLIDE`, `invulnTime = SHORT_HIT_INVULN` and `lives`
unchanged; if `hp ≤ DAMAGE_ENEMY_COLLIDE` the result is `hp = MAX_HP`,
one life lost, position reset to the spawn point `(31, 54)` and
`invulnTime = INVULN_DURATION`. -/
theorem enemy_damage_cases (i : ℕ) (e : Enemy) (p : Player) (go : Bool)
    (hinv : p.invulnTime = 0)
    (hov : aabb p.x p.y playerW playerH e.x e.y enemyW enemyH = true) :
    (damageEnemyCollide < p.hp →
      (enemyPlayerLoop [(i, e)] p go).player =
        { p with hp := p.hp - damageEnemyCollide
                 invulnTime := shortHitInvuln } ∧
      (enemyPlayerLoop [(i, e)] p go).player.lives = p.lives) ∧
    (p.hp ≤ damageEnemyCollide →
      (enemyPlayerLoop [(i, e)] p go).player =
        { p with hp := maxHp, lives := p.lives - 1, x := 31, y := 54
                 invulnTime := invulnDuration }) := by
  have hnot : ¬ 0 < p.invulnTime := by rw [hinv]; exact lt_irrefl 0
  have hloop : enemyPlayerLoop [(i, e)] p go =
      { player := (damageHit damageEnemyCollide p go).1, dead := [i]
        gameOver := (damageHit damageEnemyCollide p go).2 } := by
    simp only [enemyPlayerLoop, if_neg hnot, hov, if_pos]
  constructor
  · intro hhp
    have hmax : max 0 (p.hp - damageEnemyCollide) = p.hp - damageEnemyCollide := by
      omega
    have hpos : ¬ (p.hp - damageEnemyCollide ≤ 0) := by omega
    rw [hloop]
    simp only [damageHit, hmax, if_neg hpos]
    exact ⟨trivial, trivial⟩
  · intro hhp
    have hle : max 0 (p.hp - damageEnemyCollide) ≤ 0 := by omega
    rw [hloop]
    simp only [damageHit, if_pos hle]

/-- C4 witness: both branches at concrete players (full hp, then
`hp = 40 ≤ 48`), against an enemy overlapping the spawn position. -/
theorem enemy_damage_cases_witness :
    ((enemyPlayerLoop [(0, cexEnemy)] cexPlayerHi false).player =
        { cexPlayerHi with hp := cexPlayerHi.hp - damageEnemyCollide
                           invulnTime := shortHitInvuln }) ∧
    ((enemyPlayerLoop [(0, cexEnemy)] cexPlayerLo false).player =
        { cexPlayerLo with hp := maxHp, lives := cexPlayerLo.lives - 1
                           x := 31, y := 54, invulnTime := invulnDuration }) :=
  ⟨((enemy_damage_cases 0 cexEnemy cexPlayerHi false rfl
      (by norm_num [aabb, cexPlayerHi, cexEnemy, initialState, playerW,
        playerH, enemyW, enemyH])).1 (by decide)).1,
    (enemy_damage_cases 0 cexEnemy cexPlayerLo false rfl
      (by norm_num [aabb, cexPlayerLo, cexEnemy, initialState, playerW,
        playerH, enemyW, enemyH])).2 (by decide)⟩

/-! ## Claim C5: invulnerability suppresses damage; timer decay -/

/-- C5.  While `invulnTime > 0` at the start of the collision phase,
neither the enemy-collision loop nor the enemy-bullet loop changes the
player at all (in particular hp and lives); and the end-of-frame timer
update sends a nonnegative `invulnTime` to
`max 0 (invulnTime - dt/1000)` regardless of any other state. -/
theorem invuln_blocks_damage (es : List (ℕ × Enemy)) (bs : List (ℕ × Bullet))
    (p : Player) (go : Bool) (dt : ℕ) (s : GameState) :
    (0 < p.invulnTime →
      (enemyPlayerLoop es p go).player = p ∧
      (enemyBulletLoop bs p go).player = p) ∧
    (0 ≤ s.player.invulnTime →
      (timersPhase dt s).player.invulnTime
        = max 0 (s.player.invulnTime - (dt : ℚ) / 1000)) := by
  constructor
  · intro h
    rw [enemyPlayerLoop_invuln es p go h, enemyBulletLoop_invuln bs p go h]
    refine ⟨?_, ?_⟩ <;> trivial
  · intro h
    rw [timersPhase_invulnTime]
    unfold timerDecay
    rcases lt_or_eq_of_le h with h0 | h0
    · rw [if_pos h0]
    · rw [if_neg (by rw [← h0]; exact lt_irrefl 0), ← h0]
      have h1 : (0 : ℚ) ≤ (dt : ℚ) / 1000 := by positivity
      rw [max_eq_left (by linarith)]

/-- C5 witness: invulnerable player facing an overlapping enemy and an
overlapping enemy bullet; decay evaluated on the initial state. -/
theorem invuln_blocks_damage_witness :
    ((enemyPlayerLoop [(0, cexEnemy)]
        { cexPlayerHi with invulnTime := 1 } false).player =
      { cexPlayerHi with invulnTime := 1 } ∧
     (enemyBulletLoop [(0, cexEnemyBullet)]
        { cexPlayerHi with invulnTime := 1 } false).player =
      { cexPlayerHi with invulnTime := 1 }) ∧
    ((timersPhase 16 initialState).player.invulnTime
      = max 0 (initialState.player.invulnTime - (16 : ℚ) / 1000)) :=
  ⟨(invuln_blocks_damage [(0, cexEnemy)] [(0, cexEnemyBullet)]
      { cexPlayerHi with invulnTime := 1 } false 16 initialState).1
      (by norm_num),
   (invuln_blocks_damage [] [] cexPlayerHi false 16 initialState).2
      (by norm_num [initialState])⟩

/-! ## Claim C6: firing rules -/

/-- C6.  Firing happens only when `fire_cd == 0` and `ammo > 0`; then ammo
drops by exactly 1, the cooldown resets to
`max 1 (int(6 * (0.5 if rapid else 1)))` — that is 3 under rapid fire and
6 otherwise, the same values as rounding — and one bullet is created
(three under spread).  Otherwise the attempt is a silent no-op. -/
theorem fire_rules (p : Player) (fire : Bool) :
    (fire = true → p.fireCd = 0 → 0 < p.ammo →
      (fireStep fire p).1.ammo = p.ammo - 1 ∧
      (fireStep fire p).1.fireCd = max 1 (pyInt ((fireCooldownFrames : ℚ) *
        (if 0 < p.rapidFireTime then rapidFireFactor else 1))) ∧
      (fireStep fire p).1.fireCd = (if 0 < p.rapidFireTime then 3 else 6) ∧
      (fireStep fire p).2.length = (if 0 < p.spreadTime then 3 else 1)) ∧
    (¬ (fire = true ∧ p.fireCd = 0 ∧ 0 < p.ammo) →
      fireStep fire p = (p, [])) := by
  constructor
  · intro hf hcd ha
    have hcond : fire = true ∧ p.fireCd = 0 ∧ 0 < p.ammo := ⟨hf, hcd, ha⟩
    simp only [fireStep, if_pos hcond]
    refine ⟨by simp; omega, by trivial, ?_, ?_⟩
    · by_cases hr : 0 < p.rapidFireTime
      · simp only [if_pos hr]
        show max 1 (pyInt ((6 : ℚ) * rapidFireFactor)) = 3
        norm_num [pyInt, rapidFireFactor]
      · simp only [if_neg hr]
        show max 1 (pyInt ((6 : ℚ) * 1)) = 6
        norm_num [pyInt]
    · by_cases hs : 0 < p.spreadTime
      · simp [hs]
      · simp [hs]
  · intro h
    simp only [fireStep, if_neg h]

/-- C6 witness: a player with one round fires (one bullet, ammo 0,
cooldown 6); firing again during cooldown or with no ammo is a no-op. -/
theorem fire_rules_witness :
    ((fireStep true { cexPlayerHi with ammo := 1 }).1.ammo = 0 ∧
     (fireStep true { cexPlayerHi with ammo := 1 }).2.length = 1) ∧
    fireStep true { cexPlayerHi with ammo := 0 } =
      ({ cexPlayerHi with ammo := 0 }, []) ∧
    fireStep true { cexPlayerHi with fireCd := 6 } =
      ({ cexPlayerHi with fireCd := 6 }, []) := by
  refine ⟨⟨?_, ?_⟩, ?_, ?_⟩
  · have h := ((fire_rules { cexPlayerHi with ammo := 1 } true).1
      rfl rfl (by decide)).1
    rw [h]; decide
  · have h := ((fire_rules { cexPlayerHi with ammo := 1 } true).1
      rfl rfl (by decide)).2.2.2
    rw [h]; decide
  · exact (fire_rules { cexPlayerHi with ammo := 0 } true).2 (by decide)
  · exact (fire_rules { cexPlayerHi with fireCd := 6 } true).2 (by decide)

/-! ## Claim C9: pickups refill a resource and restart a powerup timer -/

/-- C9.  Collecting a fuel pod refills fuel (capped at `MAX_FUEL`) and
restarts the speed-boost timer to `SPEED_BOOST_DURATION`; collecting an
ammo pod refills ammo (capped at `MAX_AMMO`) and restarts the rapid-fire
timer to `RAPID_FIRE_DURATION`; in both cases the pod is marked for
removal. -/
theorem pickup_effects (i : ℕ) (pod : Pod) (p : Player)
    (hov : aabb p.x p.y playerW playerH pod.x pod.y 2 2 = true) :
    ((pickupLoop fuelEffect [(i, pod)] p).1.fuel
        = min maxFuel (p.fuel + fuelPickupAmount) ∧
     (pickupLoop fuelEffect [(i, pod)] p).1.speedBoostTime
        = speedBoostDuration ∧
     (pickupLoop fuelEffect [(i, pod)] p).2 = [i]) ∧
    ((pickupLoop ammoEffect [(i, pod)] p).1.ammo
        = min maxAmmo (p.ammo + ammoPickupAmount) ∧
     (pickupLoop ammoEffect [(i, pod)] p).1.rapidFireTime
        = rapidFireDuration ∧
     (pickupLoop ammoEffect [(i, pod)] p).2 = [i]) := by
  constructor
  · simp only [pickupLoop, hov, if_pos]
    refine ⟨?_, ?_, ?_⟩ <;> trivial
  · simp only [pickupLoop, hov, if_pos]
    refine ⟨?_, ?_, ?_⟩ <;> trivial

lemma podOverlap : aabb cexPlayerHi.x cexPlayerHi.y playerW playerH
    cexPod.x cexPod.y 2 2 = true := by
  norm_num [aabb, cexPlayerHi, cexPod, initialState, playerW, playerH]

/-- C9 witness: a pod dropped on the spawn-point player. -/
theorem pickup_effects_witness :
    ((pickupLoop fuelEffect [(0, cexPod)] cexPlayerHi).1.fuel
        = min maxFuel (cexPlayerHi.fuel + fuelPickupAmount) ∧
     (pickupLoop fuelEffect [(0, cexPod)] cexPlayerHi).1.speedBoostTime
        = speedBoostDuration) ∧
    ((pickupLoop ammoEffect [(0, cexPod)] cexPlayerHi).1.ammo
        = min maxAmmo (cexPlayerHi.ammo + ammoPickupAmount) ∧
     (pickupLoop ammoEffect [(0, cexPod)] cexPlayerHi).1.rapidFireTime
        = rapidFireDuration) :=
  ⟨⟨((pickup_effects 0 cexPod cexPlayerHi podOverlap).1).1,
    ((pickup_effects 0 cexPod cexPlayerHi podOverlap).1).2.1⟩,
   ⟨((pickup_effects 0 cexPod cexPlayerHi podOverlap).2).1,
    ((pickup_effects 0 cexPod cexPlayerHi podOverlap).2).2.1⟩⟩

/-! ## Claim C7: bullet flight time to the top edge -/

/-- Closed form of repeated Euler steps: position moves linearly. -/
lemma moveBullet_iterate (b : Bullet) (n : ℕ) :
    (moveBullet^[n] b).y = b.y + n * b.vy ∧ (moveBullet^[n] b).vy = b.vy := by
  induction n with
  | zero => simp
  | succ n ih =>
    rw [Function.iterate_succ_apply']
    unfold moveBullet
    constructor
    · show (moveBullet^[n] b).y + (moveBullet^[n] b).vy = _
      rw [ih.1, ih.2]; push_cast; ring
    · exact ih.2

/-- C7 counterexample.  With the player at the spawn row (`y = 54`) the
fired bullet starts at `y = 52` (two pixels above the player), so it is
already at `y ≤ 0` after 21 frames, one frame before the claimed
`ceil(player_y / bullet_speed) = 22`. -/
theorem bullet_top_counterexample :
    (fireStep true initialState.player).2 =
      [{ x := 32, y := 52, vx := 0, vy := -bulletSpeed }] ∧
    ⌈initialState.player.y / bulletSpeed⌉ = 22 ∧
    (moveBullet^[21] { x := 32, y := 52, vx := 0, vy := -bulletSpeed }).y ≤ 0 := by
  refine ⟨?_, ?_, ?_⟩
  · have hcond : True ∧ initialState.player.fireCd = 0 ∧
        0 < initialState.player.ammo := ⟨trivial, rfl, by decide⟩
    have hns : ¬ 0 < initialState.player.spreadTime := by
      norm_num [initialState]
    simp only [fireStep, if_pos hcond, if_neg hns]
    norm_num [initialState]
  · show ⌈(54 : ℚ) / bulletSpeed⌉ = 22
    rw [Int.ceil_eq_iff]
    norm_num [bulletSpeed]
  · rw [(moveBullet_iterate _ _).1]
    norm_num [bulletSpeed]

/-- C7 amended.  The bullet created by firing (no spread) starts at
`(player_x + 1, player_y - 2)` with zero horizontal velocity and the
configured upward speed, and reaches `y ≤ 0` after exactly
`ceil((player_y - 2) / bullet_speed)` frames — not
`ceil(player_y / bullet_speed)`: strictly positive `y` at every earlier
frame. -/
theorem bullet_reaches_top (p : Player) (hcd : p.fireCd = 0)
    (ha : 0 < p.ammo) (hs : p.spreadTime ≤ 0) :
    ∃ b : Bullet, (fireStep true p).2 = [b] ∧ b.vx = 0 ∧
      b.vy = -bulletSpeed ∧ b.y = p.y - 2 ∧
      (moveBullet^[(⌈(p.y - 2) / bulletSpeed⌉).toNat] b).y ≤ 0 ∧
      ∀ k, k < (⌈(p.y - 2) / bulletSpeed⌉).toNat →
        0 < (moveBullet^[k] b).y := by
  have hcond : True ∧ p.fireCd = 0 ∧ 0 < p.ammo := ⟨trivial, hcd, ha⟩
  have hns : ¬ 0 < p.spreadTime := not_lt.mpr hs
  have hbs : (0 : ℚ) < bulletSpeed := by norm_num [bulletSpeed]
  refine ⟨{ x := p.x + 1, y := p.y - 2, vx := 0, vy := -bulletSpeed },
    ?_, rfl, rfl, rfl, ?_, ?_⟩
  · simp only [fireStep, if_pos hcond, if_neg hns]
  · rw [(moveBullet_iterate _ _).1]
    show p.y - 2 + ((⌈(p.y - 2) / bulletSpeed⌉).toNat : ℚ) * -bulletSpeed ≤ 0
    have h1 : (p.y - 2) / bulletSpeed ≤ ((⌈(p.y - 2) / bulletSpeed⌉).toNat : ℚ) := by
      refine le_trans (Int.le_ceil _) ?_
      have := Int.self_le_toNat ⌈(p.y - 2) / bulletSpeed⌉
      exact_mod_cast this
    rw [div_le_iff₀ hbs] at h1
    nlinarith
  · intro k hk
    rw [(moveBullet_iterate _ _).1]
    show 0 < p.y - 2 + (k : ℚ) * -bulletSpeed
    have h1 : (k : ℤ) < ⌈(p.y - 2) / bulletSpeed⌉ := Int.lt_toNat.mp hk
    have h2 : (k : ℚ) < (p.y - 2) / bulletSpeed := Int.lt_ceil.mp h1
    rw [lt_div_iff₀ hbs] at h2
    nlinarith

/-- C7 amended, witness: the initial player. -/
theorem bullet_reaches_top_witness :
    ∃ b : Bullet, (fireStep true initialState.player).2 = [b] ∧ b.vx = 0 ∧
      b.vy = -bulletSpeed ∧ b.y = initialState.player.y - 2 ∧
      (moveBullet^[(⌈(initialState.player.y - 2) / bulletSpeed⌉).toNat] b).y ≤ 0 ∧
      ∀ k, k < (⌈(initialState.player.y - 2) / bulletSpeed⌉).toNat →
        0 < (moveBullet^[k] b).y :=
  bullet_reaches_top initialState.player rfl (by decide)
    (by norm_num [initialState])

/-! ## Claim C8: difficulty formulas -/

/-- Under the outer `max 20`, Python's truncation toward zero agrees with
the floor (they differ only on negative values, which `max` absorbs). -/
lemma max20_pyInt_eq_floor (q : ℚ) : max 20 (pyInt q) = max 20 ⌊q⌋ := by
  unfold pyInt
  split
  · rfl
  · rename_i h
    push_neg at h
    have hc : ⌈q⌉ ≤ 0 := by simpa using Int.ceil_le_ceil h.le
    have hf : ⌊q⌋ ≤ 0 := by simpa using Int.floor_le_floor h.le
    rw [max_eq_left (by omega), max_eq_left (by omega)]

/-- The within-level progress fraction of the source is the fractional
part of `time_s / LEVEL_DURATION`. -/
lemma timeInLevel_div (t : ℚ) :
    timeInLevel t / levelDuration = Int.fract (t / levelDuration) := by
  unfold timeInLevel levelOf Int.fract
  rw [sub_div]
  congr 1
  rw [mul_div_assoc, div_self (by norm_num [levelDuration]), mul_one]

/-- C8 counterexample.  At `time_s = 24` the code's spawn interval is
`max(20, int(55.6)) = 55`, while the claimed round-to-nearest formula
gives `max(20, round(55.6)) = 56`. -/
theorem difficulty_round_counterexample :
    spawnIntervalOf 24 = 55 ∧
    max 20 (round (spawnIntervalBase - (levelOf 24) * 4
      - (timeInLevel 24 / levelDuration) * 2)) = 56 := by
  have hl : levelOf 24 = 0 := by
    unfold levelOf levelDuration
    rw [Int.floor_eq_zero_iff]
    constructor <;> norm_num
  have ht : timeInLevel 24 = 24 := by
    unfold timeInLevel
    rw [hl]; norm_num
  have hfl : ⌊(278 : ℚ) / 5⌋ = 55 := by
    rw [Int.floor_eq_iff]; norm_num
  have hfl2 : ⌊(278 : ℚ) / 5 + 1 / 2⌋ = 56 := by
    rw [Int.floor_eq_iff]; norm_num
  constructor
  · unfold spawnIntervalOf pyInt
    rw [hl, ht]
    have he : spawnIntervalBase - (0 : ℤ) * 4 - 24 / levelDuration * 2
        = (278 : ℚ) / 5 := by
      norm_num [spawnIntervalBase, levelDuration]
    rw [he, if_pos (by norm_num), hfl]
    decide
  · rw [hl, ht]
    have he : spawnIntervalBase - (0 : ℤ) * 4 - 24 / levelDuration * 2
        = (278 : ℚ) / 5 := by
      norm_num [spawnIntervalBase, levelDuration]
    rw [he, round_eq, hfl2]
    decide

/-- C8 amended.  Level and enemy speed are as the specification states;
the spawn interval truncates (floors) the inner expression rather than
rounding it to the nearest integer. -/
theorem difficulty_formulas (t : ℚ) :
    levelOf t = ⌊t / levelDuration⌋ ∧
    enemySpeedOf t = enemyBaseSpeed + ⌊t / levelDuration⌋ * enemySpeedPerLevel
      + Int.fract (t / levelDuration) * enemySpeedPerLevel ∧
    spawnIntervalOf t = max 20 ⌊spawnIntervalBase - ⌊t / levelDuration⌋ * 4
      - Int.fract (t / levelDuration) * 2⌋ := by
  refine ⟨rfl, ?_, ?_⟩
  · unfold enemySpeedOf
    rw [timeInLevel_div]
    rfl
  · unfold spawnIntervalOf
    rw [timeInLevel_div, max20_pyInt_eq_floor]
    rfl

/-! ## Claim C10: at most one damage event per frame -/

/-- C10.  Running the player–enemy pass and then the enemy-bullet pass
(the frame's damage phase): each pass kills at most one entity; the
resulting player is either untouched or the result of exactly one damage
application to the original player, and any damage leaves the player
invulnerable; once the enemy pass has left the player invulnerable, the
bullet pass is skipped entirely — no enemy bullet is marked dead, so all
of them remain in flight. -/
theorem single_damage_per_frame (es : List (ℕ × Enemy))
    (bs : List (ℕ × Bullet)) (p : Player) (go : Bool) :
    (enemyPlayerLoop es p go).dead.length ≤ 1 ∧
    (enemyBulletLoop bs (enemyPlayerLoop es p go).player
      (enemyPlayerLoop es p go).gameOver).dead.length ≤ 1 ∧
    ((enemyBulletLoop bs (enemyPlayerLoop es p go).player
        (enemyPlayerLoop es p go).gameOver).player = p ∨
      (((enemyBulletLoop bs (enemyPlayerLoop es p go).player
          (enemyPlayerLoop es p go).gameOver).player
            = (damageHit damageEnemyCollide p go).1 ∨
        (enemyBulletLoop bs (enemyPlayerLoop es p go).player
          (enemyPlayerLoop es p go).gameOver).player
            = (damageHit damageEnemyBullet p go).1) ∧
       0 < (enemyBulletLoop bs (enemyPlayerLoop es p go).player
          (enemyPlayerLoop es p go).gameOver).player.invulnTime)) ∧
    (0 < (enemyPlayerLoop es p go).player.invulnTime →
      enemyBulletLoop bs (enemyPlayerLoop es p go).player
          (enemyPlayerLoop es p go).gameOver
        = { player := (enemyPlayerLoop es p go).player, dead := []
            gameOver := (enemyPlayerLoop es p go).gameOver }) := by
  rcases enemyPlayerLoop_char es p go with h1 | ⟨i, h1⟩
  · refine ⟨?_, ?_, ?_, ?_⟩
    · rw [h1]; simp
    · rw [h1]; dsimp only
      rcases enemyBulletLoop_char bs p go with h2 | ⟨j, h2⟩ <;> rw [h2] <;> simp
    · rw [h1]; dsimp only
      rcases enemyBulletLoop_char bs p go with h2 | ⟨j, h2⟩
      · rw [h2]; exact Or.inl rfl
      · rw [h2]; exact Or.inr ⟨Or.inr rfl, damageHit_invuln_pos _ _ _⟩
    · rw [h1]; dsimp only
      intro hinv
      exact enemyBulletLoop_invuln bs p go hinv
  · have hpos := damageHit_invuln_pos damageEnemyCollide p go
    refine ⟨?_, ?_, ?_, ?_⟩
    · rw [h1]; simp
    · rw [h1]; dsimp only
      rw [enemyBulletLoop_invuln _ _ _ hpos]; simp
    · rw [h1]; dsimp only
      rw [enemyBulletLoop_invuln _ _ _ hpos]
      exact Or.inr ⟨Or.inl rfl, hpos⟩
    · rw [h1]; dsimp only
      intro h
      exact enemyBulletLoop_invuln _ _ _ hpos

/-- C10 witness: the enemy pass damages the player (leaving them
invulnerable), after which an overlapping enemy bullet is skipped and not
destroyed. -/
theorem single_damage_witness :
    enemyBulletLoop [(0, cexEnemyBullet)]
        (enemyPlayerLoop [(0, cexEnemy)] cexPlayerHi false).player
        (enemyPlayerLoop [(0, cexEnemy)] cexPlayerHi false).gameOver
      = { player := (enemyPlayerLoop [(0, cexEnemy)] cexPlayerHi false).player
          dead := []
          gameOver := (enemyPlayerLoop [(0, cexEnemy)] cexPlayerHi false).gameOver } :=
  (single_damage_per_frame [(0, cexEnemy)] [(0, cexEnemyBullet)]
      cexPlayerHi false).2.2.2 (by
    norm_num [enemyPlayerLoop, aabb, cexPlayerHi, cexEnemy, initialState,
      playerW, playerH, enemyW, enemyH, damageHit, damageEnemyCollide,
      maxHp, shortHitInvuln, invulnDuration])

/-! ## Claim C2: game over is irreversible, but the update is not frozen -/

lemma combatPhase_gameOver (o : Oracle) (s : GameState) :
    (combatPhase o s).gameOver
      = (enemyBulletLoop s.enemyBullets.enum
          (enemyPlayerLoop s.enemies.enum s.player s.gameOver).player
          (enemyPlayerLoop s.enemies.enum s.player s.gameOver).gameOver).gameOver :=
  rfl

lemma combatPhase_player (o : Oracle) (s : GameState) :
    (combatPhase o s).player =
      (pickupLoop healthEffect
        ((s.healthPods ++ (bulletEnemyLoop o s.bullets.enum s.enemies.enum).drops.dHealth).enum)
        (pickupLoop spreadEffect
          ((s.spreadPods ++ (bulletEnemyLoop o s.bullets.enum s.enemies.enum).drops.dSpread).enum)
          (pickupLoop ammoEffect
            ((s.ammoPods ++ (bulletEnemyLoop o s.bullets.enum s.enemies.enum).drops.dAmmo).enum)
            (pickupLoop fuelEffect
              ((s.fuelPods ++ (bulletEnemyLoop o s.bullets.enum s.enemies.enum).drops.dFuel).enum)
              (enemyBulletLoop s.enemyBullets.enum
                (enemyPlayerLoop s.enemies.enum s.player s.gameOver).player
                (enemyPlayerLoop s.enemies.enum s.player s.gameOver).gameOver).player).1).1).1).1 :=
  rfl

/-- C2 amended.  The game-over flag is irreversible: once set, every
subsequent frame keeps it set (the code never clears it). -/
theorem gameOver_irreversible (inp : Input) (o : Oracle) (dt : ℕ)
    (s : GameState) (h : s.gameOver = true) :
    (step inp o dt s).gameOver = true := by
  have hpre : (preCombat inp o dt s).gameOver = true := by
    unfold preCombat; simp [h]
  show (timersPhase dt (fuelDecayPhase dt (combatPhase o (preCombat inp o dt s)))).gameOver = true
  rw [timersPhase_gameOver, fuelDecayPhase_gameOver, combatPhase_gameOver]
  set s' := preCombat inp o dt s
  rcases enemyPlayerLoop_char s'.enemies.enum s'.player s'.gameOver with h1 | ⟨i, h1⟩
  · rw [h1]
    rcases enemyBulletLoop_char s'.enemyBullets.enum s'.player s'.gameOver with
      h2 | ⟨j, h2⟩
    · rw [h2]; exact hpre
    · rw [h2]; exact damageHit_go_mono _ _ _ hpre
  · rw [h1]
    rw [enemyBulletLoop_invuln _ _ _ (damageHit_invuln_pos damageEnemyCollide _ _)]
    exact damageHit_go_mono _ _ _ hpre

/-- C2 amended, witness. -/
theorem gameOver_irreversible_witness :
    (step idleInput quietOracle 1000 cexStateC2).gameOver = true :=
  gameOver_irreversible idleInput quietOracle 1000 cexStateC2 rfl

/-- C2 counterexample.  In a game-over state the update step is not
frozen: with one second elapsed and no entities at all, the next frame
still changes the game state (fuel keeps draining). -/
theorem gameOver_not_frozen :
    cexStateC2.gameOver = true ∧
    (step idleInput quietOracle 1000 cexStateC2).player.fuel
      ≠ cexStateC2.player.fuel := by
  refine ⟨rfl, ?_⟩
  norm_num [step, preCombat, tickTime, movePlayerPhase, cooldownPhase,
    firePhase, fireStep, spawnEnemyPhase, spawnPickupPhase, moveBulletsPhase,
    moveEnemiesPhase, moveEnemyBulletsPhase, movePodsPhase, combatPhase,
    bulletEnemyLoop, enemyPlayerLoop, enemyBulletLoop, pickupLoop,
    fuelDecayPhase, timersPhase, timerDecay, cexStateC2, initialState,
    idleInput, quietOracle, spawnIntervalOf, levelOf, timeInLevel, pyInt,
    spawnIntervalBase, levelDuration, maxFuel, fuelConsumptionPerSec,
    List.enum, List.enumFrom, List.filterMap, pickupSpawnInterval]

/-! ## Claim C1: resource bounds -/

/-- C1 counterexample.  A reachable-shaped game-over state that satisfies
every claimed bound (`lives = 0 ≥ 0`) whose very next frame drives
`lives` to `-1`: the update keeps running after game over and `lives` has
no lower clamp. -/
theorem lives_bound_counterexample :
    (0 ≤ cexStateC1.player.hp ∧ cexStateC1.player.hp ≤ maxHp ∧
     0 ≤ cexStateC1.player.fuel ∧ cexStateC1.player.fuel ≤ maxFuel ∧
     0 ≤ cexStateC1.player.ammo ∧ cexStateC1.player.ammo ≤ maxAmmo ∧
     0 ≤ cexStateC1.player.lives) ∧
    (step idleInput quietOracle 0 cexStateC1).player.lives < 0 := by
  constructor
  · norm_num [cexStateC1, initialState, maxHp, maxFuel, maxAmmo]
  · norm_num [step, preCombat, tickTime, movePlayerPhase, cooldownPhase,
      firePhase, fireStep, spawnEnemyPhase, spawnPickupPhase, moveBulletsPhase,
      moveEnemiesPhase, moveEnemyOne, enemyShootOne, moveEnemyBulletsPhase,
      movePodsPhase, combatPhase, bulletEnemyLoop, enemyPlayerLoop,
      enemyBulletLoop, pickupLoop, damageHit, aabb,
      fuelDecayPhase, timersPhase, timerDecay, cexStateC1, initialState,
      idleInput, quietOracle, spawnIntervalOf, levelOf, timeInLevel, pyInt,
      spawnIntervalBase, levelDuration, maxFuel, fuelConsumptionPerSec,
      enemySpeedOf, enemyBaseSpeed, enemySpeedPerLevel, shootProbOf,
      enemyShootStartTime, playerW, playerH, enemyW, enemyH, maxHp,
      damageEnemyCollide, invulnDuration, shortHitInvuln, clamp, Wfield, Hfield,
      List.enum, List.enumFrom, List.filterMap, pickupSpawnInterval]

/-- Resource fields through the pre-combat phases: hp, fuel and lives are
untouched; ammo is untouched or pays one round for a shot; the flag is
untouched. -/
lemma preCombat_resources (inp : Input) (o : Oracle) (dt : ℕ) (s : GameState) :
    (preCombat inp o dt s).player.hp = s.player.hp ∧
    (preCombat inp o dt s).player.fuel = s.player.fuel ∧
    (preCombat inp o dt s).player.lives = s.player.lives ∧
    ((preCombat inp o dt s).player.ammo = s.player.ammo ∨
      (preCombat inp o dt s).player.ammo = max 0 (s.player.ammo - 1)) ∧
    (preCombat inp o dt s).gameOver = s.gameOver := by
  unfold preCombat
  simp only [movePodsPhase_player, moveEnemyBulletsPhase_player,
    moveEnemiesPhase_player, moveBulletsPhase_player, spawnPickupPhase_player,
    spawnEnemyPhase_player, firePhase_player, movePodsPhase_gameOver,
    moveEnemyBulletsPhase_gameOver, moveEnemiesPhase_gameOver,
    moveBulletsPhase_gameOver, spawnPickupPhase_gameOver,
    spawnEnemyPhase_gameOver, firePhase_gameOver, cooldownPhase_gameOver,
    movePlayerPhase_gameOver, tickTime_gameOver]
  refine ⟨?_, ?_, ?_, ?_, trivial⟩
  · rw [fireStep_hp]; simp
  · rw [fireStep_fuel]; simp
  · rw [fireStep_lives]; simp
  · rcases fireStep_ammo inp.fire
        (cooldownPhase (movePlayerPhase inp (tickTime dt s))).player with h | h
    · left; rw [h]; simp
    · right; rw [h]; simp

/-- Each pickup effect preserves the resource bounds and the lives. -/
lemma fuelEffect_inv (L : ℤ) (q : Player) (h : ResInv q ∧ q.lives = L) :
    ResInv (fuelEffect q) ∧ (fuelEffect q).lives = L := by
  obtain ⟨⟨h1, h2, h3, h4, h5, h6⟩, hL⟩ := h
  refine ⟨⟨h1, h2, ?_, ?_, h5, h6⟩, hL⟩
  · refine le_min (by norm_num [maxFuel]) ?_
    have : (0 : ℚ) ≤ fuelPickupAmount := by norm_num [fuelPickupAmount]
    linarith
  · exact min_le_left _ _

lemma ammoEffect_inv (L : ℤ) (q : Player) (h : ResInv q ∧ q.lives = L) :
    ResInv (ammoEffect q) ∧ (ammoEffect q).lives = L := by
  obtain ⟨⟨h1, h2, h3, h4, h5, h6⟩, hL⟩ := h
  refine ⟨⟨h1, h2, h3, h4, ?_, ?_⟩, hL⟩
  · refine le_min (by norm_num [maxAmmo]) ?_
    have : (0 : ℤ) ≤ ammoPickupAmount := by norm_num [ammoPickupAmount]
    omega
  · exact min_le_left _ _

lemma spreadEffect_inv (L : ℤ) (q : Player) (h : ResInv q ∧ q.lives = L) :
    ResInv (spreadEffect q) ∧ (spreadEffect q).lives = L := h

lemma healthEffect_inv (L : ℤ) (q : Player) (h : ResInv q ∧ q.lives = L) :
    ResInv (healthEffect q) ∧ (healthEffect q).lives = L := by
  obtain ⟨⟨h1, h2, h3, h4, h5, h6⟩, hL⟩ := h
  refine ⟨⟨?_, ?_, h3, h4, h5, h6⟩, hL⟩
  · refine le_min (by norm_num [maxHp]) ?_
    have : (0 : ℤ) ≤ healthPickupAmount := by norm_num [healthPickupAmount]
    omega
  · exact min_le_left _ _

/-- Damage keeps the resource bounds and costs at most one life, and a
cleared flag still implies at least one life. -/
lemma damageHit_resinv (d : ℤ) (p : Player) (go : Bool) (hd : 0 ≤ d)
    (h : ResInv p) :
    ResInv (damageHit d p go).1 := by
  obtain ⟨h1, h2, h3, h4, h5, h6⟩ := h
  obtain ⟨hb1, hb2⟩ := damageHit_hp_bounds d p go hd h2
  exact ⟨hb1, hb2, by rw [damageHit_fuel]; exact h3,
    by rw [damageHit_fuel]; exact h4,
    by rw [damageHit_ammo]; exact h5,
    by rw [damageHit_ammo]; exact h6⟩

/-- Through the whole combat-and-pickups phase: the resource bounds are
preserved, at most one life is lost, and a cleared game-over flag still
implies at least one life. -/
lemma combat_resources (o : Oracle) (s : GameState)
    (hres : ResInv s.player)
    (hgo : s.gameOver = false → 1 ≤ s.player.lives) :
    ResInv (combatPhase o s).player ∧
    ((combatPhase o s).gameOver = false → 1 ≤ (combatPhase o s).player.lives) ∧
    s.player.lives - 1 ≤ (combatPhase o s).player.lives := by
  -- characterize the player and flag after the two damage passes
  have hmain : ∃ (p2 : Player) (go2 : Bool),
      (enemyBulletLoop s.enemyBullets.enum
        (enemyPlayerLoop s.enemies.enum s.player s.gameOver).player
        (enemyPlayerLoop s.enemies.enum s.player s.gameOver).gameOver).player = p2 ∧
      (enemyBulletLoop s.enemyBullets.enum
        (enemyPlayerLoop s.enemies.enum s.player s.gameOver).player
        (enemyPlayerLoop s.enemies.enum s.player s.gameOver).gameOver).gameOver = go2 ∧
      ResInv p2 ∧ (go2 = false → 1 ≤ p2.lives) ∧
      s.player.lives - 1 ≤ p2.lives := by
    rcases enemyPlayerLoop_char s.enemies.enum s.player s.gameOver with h1 | ⟨i, h1⟩
    · rw [h1]; dsimp only
      rcases enemyBulletLoop_char s.enemyBullets.enum s.player s.gameOver with
        h2 | ⟨j, h2⟩
      · rw [h2]; dsimp only
        exact ⟨_, _, rfl, rfl, hres, hgo, by omega⟩
      · rw [h2]; dsimp only
        refine ⟨_, _, rfl, rfl,
          damageHit_resinv _ _ _ (by norm_num [damageEnemyBullet]) hres,
          damageHit_go_contract _ _ _ hgo, ?_⟩
        exact (damageHit_lives damageEnemyBullet s.player s.gameOver).1
    · rw [h1]; dsimp only
      rw [enemyBulletLoop_invuln _ _ _
        (damageHit_invuln_pos damageEnemyCollide _ _)]
      dsimp only
      refine ⟨_, _, rfl, rfl,
        damageHit_resinv _ _ _ (by norm_num [damageEnemyCollide]) hres,
        damageHit_go_contract _ _ _ hgo, ?_⟩
      exact (damageHit_lives damageEnemyCollide s.player s.gameOver).1
  obtain ⟨p2, go2, hp2, hgo2, hres2, hcontract2, hlives2⟩ := hmain
  -- push the invariant through the four pickup loops
  have hchain : ∀ (l1 l2 l3 l4 : List (ℕ × Pod)),
      ResInv (pickupLoop healthEffect l4 (pickupLoop spreadEffect l3
        (pickupLoop ammoEffect l2 (pickupLoop fuelEffect l1 p2).1).1).1).1 ∧
      (pickupLoop healthEffect l4 (pickupLoop spreadEffect l3
        (pickupLoop ammoEffect l2 (pickupLoop fuelEffect l1 p2).1).1).1).1.lives
        = p2.lives := by
    intro l1 l2 l3 l4
    exact pickupLoop_inv healthEffect _ (healthEffect_inv p2.lives) l4 _
      (pickupLoop_inv spreadEffect _ (spreadEffect_inv p2.lives) l3 _
        (pickupLoop_inv ammoEffect _ (ammoEffect_inv p2.lives) l2 _
          (pickupLoop_inv fuelEffect _ (fuelEffect_inv p2.lives) l1 p2
            ⟨hres2, rfl⟩)))
  rw [combatPhase_player, combatPhase_gameOver, hp2, hgo2]
  obtain ⟨hc1, hc2⟩ := hchain
    ((s.fuelPods ++ (bulletEnemyLoop o s.bullets.enum s.enemies.enum).drops.dFuel).enum)
    ((s.ammoPods ++ (bulletEnemyLoop o s.bullets.enum s.enemies.enum).drops.dAmmo).enum)
    ((s.spreadPods ++ (bulletEnemyLoop o s.bullets.enum s.enemies.enum).drops.dSpread).enum)
    ((s.healthPods ++ (bulletEnemyLoop o s.bullets.enum s.enemies.enum).drops.dHealth).enum)
  refine ⟨hc1, ?_, ?_⟩
  · intro h; rw [hc2]; exact hcontract2 h
  · rw [hc2]; exact hlives2

/-- C1 amended.  Every per-frame update preserves `0 ≤ hp ≤ MAX_HP`,
`0 ≤ fuel ≤ MAX_FUEL` and `0 ≤ ammo ≤ MAX_AMMO`; `lives` drops by at most
one per frame and satisfies `lives ≥ 1` while the session is not over —
hence `lives ≥ 0` up to and including the frame that sets game over — but
once the game-over flag is set the loop keeps simulating and `lives` may
go negative. -/
theorem resource_bounds_step (inp : Input) (o : Oracle) (dt : ℕ)
    (s : GameState) (h : GInv s) :
    GInv (step inp o dt s) ∧
      s.player.lives - 1 ≤ (step inp o dt s).player.lives := by
  obtain ⟨hres, hgo⟩ := h
  obtain ⟨hhp, hfuel, hlives, hammo, hflag⟩ := preCombat_resources inp o dt s
  have hres' : ResInv (preCombat inp o dt s).player := by
    obtain ⟨h1, h2, h3, h4, h5, h6⟩ := hres
    refine ⟨by rw [hhp]; exact h1, by rw [hhp]; exact h2,
      by rw [hfuel]; exact h3, by rw [hfuel]; exact h4, ?_, ?_⟩
    · rcases hammo with ha | ha <;> rw [ha] <;> omega
    · rcases hammo with ha | ha <;> rw [ha]
      · exact h6
      · have : (0 : ℤ) ≤ maxAmmo := by norm_num [maxAmmo]
        omega
  have hgo' : (preCombat inp o dt s).gameOver = false →
      1 ≤ (preCombat inp o dt s).player.lives := by
    rw [hflag, hlives]; exact hgo
  obtain ⟨hc1, hc2, hc3⟩ := combat_resources o (preCombat inp o dt s) hres' hgo'
  have hstep : step inp o dt s
      = timersPhase dt (fuelDecayPhase dt (combatPhase o (preCombat inp o dt s))) := rfl
  constructor
  · constructor
    · -- resource bounds survive fuel decay and timer decay
      obtain ⟨h1, h2, h3, h4, h5, h6⟩ := hc1
      rw [hstep]
      refine ⟨by simpa using h1, by simpa using h2, ?_, ?_,
        by simpa using h5, by simpa using h6⟩
      · rw [timersPhase_fuel, fuelDecayPhase_fuel]
        exact le_max_left _ _
      · rw [timersPhase_fuel, fuelDecayPhase_fuel]
        have hcons : 0 ≤ fuelConsumptionPerSec * ((dt : ℚ) / 1000) := by
          have : (0 : ℚ) ≤ fuelConsumptionPerSec := by
            norm_num [fuelConsumptionPerSec]
          positivity
        rw [max_le_iff]
        constructor
        · norm_num [maxFuel]
        · linarith
    · rw [hstep]
      intro hf
      simp only [timersPhase_gameOver, fuelDecayPhase_gameOver] at hf
      simpa using hc2 hf
  · rw [hstep]
    have : (timersPhase dt (fuelDecayPhase dt
        (combatPhase o (preCombat inp o dt s)))).player.lives
        = (combatPhase o (preCombat inp o dt s)).player.lives := by simp
    rw [this, ← hlives]
    exact hc3

/-- C1 amended, witness: one frame from the initial state. -/
theorem resource_bounds_step_witness :
    GInv (step idleInput quietOracle 16 initialState) ∧
      initialState.player.lives - 1
        ≤ (step idleInput quietOracle 16 initialState).player.lives :=
  resource_bounds_step idleInput quietOracle 16 initialState
    (by constructor
        · norm_num [ResInv, initialState, maxHp, maxFuel, maxAmmo]
        · intro _; norm_num [initialState])

end VerticalVanguard
